import Mathlib

/-!
Shallow embedding of the conversation correlation and classification engine
of `src/server/src/message.rs` (types `Conversation`, `MessageKind`, functions
`Conversation::from`, `classify`, `classify_request`, `get_source`,
`get_request_source`) together with the supporting data model from
`src/server/src/session.rs` (`MessageWithTimeStamp`, `MessageSource`) and the
wire-message shapes of the `lsp_server` crate (`Message`, `Request`,
`Response`, `Notification`, `RequestId`).

JSON payloads (`serde_json::Value`) are embedded as the inductive `Json`;
the three `serde` deserializations the engine performs
(`WorkDoneProgressParams`, `CancelParams`, `ProgressParams` of the
`lsp_types` crate) are embedded as explicit partial parsers returning
`Option`.  Rust `HashMap`s are embedded as association lists with
overwrite-on-insert semantics (`alistInsert` / `alistGet?`); the engine only
observes the maps through `get`, so this is faithful.
-/

set_option autoImplicit false

namespace LlsSpec

/-- Embedding of `serde_json::Value`.  Numbers are embedded as integers:
every identifier and token the engine inspects is an `i32` or a string, so
fractional numbers only ever flow through opaque payload positions. -/
inductive Json where
  | null
  | bool (b : Bool)
  | num (n : Int)
  | str (s : String)
  | arr (items : List Json)
  | obj (fields : List (String × Json))

/-- Field lookup in a JSON object's entry list (a `serde_json::Map`, so keys
are unique; the first match is the value). -/
def jsonLookup : List (String × Json) → String → Option Json
  | [], _ => none
  | (k, v) :: rest, name => if k = name then some v else jsonLookup rest name

/-- Embedding of `lsp_server::RequestId`: an `i32` or a string. -/
inductive RequestId where
  | num (n : Int)
  | str (s : String)
  deriving DecidableEq

/-- Embedding of `lsp_types::NumberOrString` (also used as `ProgressToken`). -/
inductive NumberOrString where
  | num (n : Int)
  | str (s : String)
  deriving DecidableEq

/-- Embedding of `session.rs`: `MessageSource` (the two peers). -/
inductive MessageSource where
  | Client
  | Server
  deriving DecidableEq

/-- Embedding of `MessageSource::other`. -/
def MessageSource.other : MessageSource → MessageSource
  | MessageSource.Client => MessageSource.Server
  | MessageSource.Server => MessageSource.Client

/-- Embedding of `lsp_server::Request`. -/
structure Request where
  id : RequestId
  method : String
  params : Json

/-- Embedding of `lsp_server::ResponseError` (code, message, data). -/
structure ResponseError where
  code : Int
  message : String
  data : Option Json

/-- Embedding of `lsp_server::Response`. -/
structure Response where
  id : RequestId
  result : Option Json
  error : Option ResponseError

/-- Embedding of `lsp_server::Notification`. -/
structure Notification where
  method : String
  params : Json

/-- Embedding of `lsp_server::Message`: the closed three-way union. -/
inductive Message where
  | request (r : Request)
  | response (r : Response)
  | notification (n : Notification)

/-- Embedding of `session.rs`: `MessageWithTimeStamp`.  The `OffsetDateTime`
instant is embedded as an integer; the engine only compares instants. -/
structure MessageWithTimeStamp where
  time_stamp : Int
  message : Message

/-- Association-list embedding of `HashMap::get`. -/
def alistGet? {κ α : Type} [DecidableEq κ] (k : κ) : List (κ × α) → Option α
  | [] => none
  | (k0, v) :: rest => if k0 = k then some v else alistGet? k rest

/-- Association-list embedding of `HashMap::insert`: overwrite the value of
an existing key, otherwise append the new entry. -/
def alistInsert {κ α : Type} [DecidableEq κ] (k : κ) (v : α) :
    List (κ × α) → List (κ × α)
  | [] => [(k, v)]
  | (k0, v0) :: rest =>
    if k0 = k then (k, v) :: rest else (k0, v0) :: alistInsert k v rest

/-- Embedding of `serde_json::from_value::<WorkDoneProgressParams>`: the
payload must be a JSON object; a missing or `null` `workDoneToken` field
yields `some none`; a numeric or string field yields the token; any other
field shape fails the whole parse. -/
def parseWorkDoneProgressParams : Json → Option (Option NumberOrString)
  | Json.obj fields =>
    match jsonLookup fields "workDoneToken" with
    | none => some none
    | some Json.null => some none
    | some (Json.num n) => some (some (NumberOrString.num n))
    | some (Json.str s) => some (some (NumberOrString.str s))
    | some _ => none
  | _ => none

/-- Embedding of `serde_json::from_value::<CancelParams>`: the payload must
be a JSON object whose required `id` field is a number or a string. -/
def parseCancelParams : Json → Option NumberOrString
  | Json.obj fields =>
    match jsonLookup fields "id" with
    | some (Json.num n) => some (NumberOrString.num n)
    | some (Json.str s) => some (NumberOrString.str s)
    | _ => none
  | _ => none

/-- Checks an optional field of a work-done-progress payload: absent or
`null` is fine, a present value must satisfy the shape check. -/
def optFieldOk (fields : List (String × Json)) (name : String)
    (check : Json → Bool) : Bool :=
  match jsonLookup fields name with
  | none => true
  | some Json.null => true
  | some v => check v

/-- Shape check for a JSON string. -/
def isJsonStr : Json → Bool
  | Json.str _ => true
  | _ => false

/-- Shape check for a JSON boolean. -/
def isJsonBool : Json → Bool
  | Json.bool _ => true
  | _ => false

/-- Shape check for a `u32` percentage value. -/
def isJsonU32 : Json → Bool
  | Json.num n => decide (0 ≤ n ∧ n < 4294967296)
  | _ => false

/-- Embedding of the `serde` deserialization of
`lsp_types::ProgressParamsValue` (untagged, whose only variant is
`WorkDoneProgress`, internally tagged by `kind` as `begin`/`report`/`end`;
`begin` requires a string `title`, the remaining known fields are
optional). -/
def parseWorkDoneProgressValue : Json → Bool
  | Json.obj fields =>
    match jsonLookup fields "kind" with
    | some (Json.str "begin") =>
      (match jsonLookup fields "title" with
        | some (Json.str _) => true
        | _ => false)
      && optFieldOk fields "cancellable" isJsonBool
      && optFieldOk fields "message" isJsonStr
      && optFieldOk fields "percentage" isJsonU32
    | some (Json.str "report") =>
      optFieldOk fields "cancellable" isJsonBool
      && optFieldOk fields "message" isJsonStr
      && optFieldOk fields "percentage" isJsonU32
    | some (Json.str "end") => optFieldOk fields "message" isJsonStr
    | _ => false
  | _ => false

/-- Embedding of `serde_json::from_value::<ProgressParams>`: the payload
must be a JSON object with a required `token` field (number or string) and a
required `value` field parsing as a work-done-progress value; the parse
result the engine uses is the token. -/
def parseProgressParams : Json → Option NumberOrString
  | Json.obj fields =>
    match jsonLookup fields "token" with
    | some (Json.num n) =>
      match jsonLookup fields "value" with
      | some v =>
        if parseWorkDoneProgressValue v then some (NumberOrString.num n) else none
      | none => none
    | some (Json.str s) =>
      match jsonLookup fields "value" with
      | some v =>
        if parseWorkDoneProgressValue v then some (NumberOrString.str s) else none
      | none => none
    | _ => none
  | _ => none

/-- Embedding of the or-pattern over method constants in the request arm of
`Conversation::from` (`message.rs` lines 63–102): the fixed set of
progress-capable request methods. -/
def isProgressCapableMethod : String → Bool
  | "initialize"
  | "textDocument/declaration"
  | "textDocument/definition"
  | "textDocument/typeDefinition"
  | "textDocument/implementation"
  | "textDocument/references"
  | "textDocument/prepareCallHierarchy"
  | "callHierarchy/incomingCalls"
  | "callHierarchy/outgoingCalls"
  | "textDocument/prepareTypeHierarchy"
  | "typeHierarchy/supertypes"
  | "typeHierarchy/subtypes"
  | "textDocument/documentHighlight"
  | "textDocument/documentLink"
  | "textDocument/hover"
  | "textDocument/codeLens"
  | "textDocument/foldingRange"
  | "textDocument/selectionRange"
  | "textDocument/documentSymbol"
  | "textDocument/semanticTokens/full"
  | "textDocument/semanticTokens/full/delta"
  | "textDocument/semanticTokens/range"
  | "textDocument/inlayHint"
  | "textDocument/inlineValue"
  | "textDocument/moniker"
  | "textDocument/completion"
  | "textDocument/diagnostic"
  | "workspace/diagnostic"
  | "textDocument/signatureHelp"
  | "textDocument/codeAction"
  | "textDocument/documentColor"
  | "textDocument/colorPresentation"
  | "textDocument/formatting"
  | "textDocument/rangeFormatting"
  | "textDocument/rename"
  | "textDocument/prepareRename"
  | "textDocument/linkedEditingRange"
  | "workspace/symbol"
  | "workspace/executeCommand" => true
  | _ => false

/-- State of the single index-building pass: the `requests` map paired with
the `progress_tokens` map. -/
abbrev IndexMaps :=
  List (RequestId × Request) × List (NumberOrString × Request)

/-- Embedding of one iteration of the loop in `Conversation::from`
(`message.rs` lines 58–117): a Request is inserted into `requests`, and, when
its method is progress-capable and its params parse with a present
work-done token, into `progress_tokens`; Responses and Notifications leave
both maps unchanged. -/
def indexStep (s : IndexMaps) (msg : MessageWithTimeStamp) : IndexMaps :=
  match msg.message with
  | Message.request request =>
    (alistInsert request.id request s.1,
      if isProgressCapableMethod request.method then
        match parseWorkDoneProgressParams request.params with
        | some params =>
          match params with
          | some token => alistInsert token request s.2
          | none => s.2
        | none => s.2
      else s.2)
  | Message.response _ => s
  | Message.notification _ => s

/-- Embedding of `Conversation` (`message.rs` lines 37–41). -/
structure Conversation where
  messages : List MessageWithTimeStamp
  requests : List (RequestId × Request)
  progress_tokens : List (NumberOrString × Request)

/-- Embedding of `impl From<Vec<MessageWithTimeStamp>> for Conversation`
(`message.rs` lines 53–125): one linear pass builds the two index maps, the
message sequence is stored unchanged. -/
def Conversation.fromMessages (value : List MessageWithTimeStamp) : Conversation :=
  { messages := value
    requests := (value.foldl indexStep ([], [])).1
    progress_tokens := (value.foldl indexStep ([], [])).2 }

/-- Embedding of the conversion of a `CancelParams` id into a `RequestId`
(`message.rs` lines 173–176 and 310–313). -/
def requestIdOfNumberOrString : NumberOrString → RequestId
  | NumberOrString.num n => RequestId.num n
  | NumberOrString.str s => RequestId.str s

/-- Embedding of `get_request_source` (`message.rs` lines 229–294): the
static method-to-declared-origin table. -/
def get_request_source (request : Request) : Option MessageSource :=
  match request.method with
  | "initialize" => some MessageSource.Client
  | "client/registerCapability" => some MessageSource.Server
  | "client/unregisterCapability" => some MessageSource.Server
  | "shutdown" => some MessageSource.Client
  | "textDocument/declaration"
  | "textDocument/definition"
  | "textDocument/typeDefinition"
  | "textDocument/implementation"
  | "textDocument/references"
  | "textDocument/prepareCallHierarchy"
  | "callHierarchy/incomingCalls"
  | "callHierarchy/outgoingCalls"
  | "textDocument/prepareTypeHierarchy"
  | "typeHierarchy/supertypes"
  | "typeHierarchy/subtypes"
  | "textDocument/documentHighlight"
  | "textDocument/documentLink"
  | "documentLink/resolve"
  | "textDocument/hover"
  | "textDocument/codeLens"
  | "codeLens/resolve"
  | "textDocument/foldingRange"
  | "textDocument/selectionRange"
  | "textDocument/documentSymbol"
  | "textDocument/semanticTokens/full"
  | "textDocument/semanticTokens/full/delta"
  | "textDocument/semanticTokens/range"
  | "textDocument/inlayHint"
  | "inlayHint/resolve"
  | "textDocument/inlineValue"
  | "textDocument/moniker"
  | "textDocument/completion"
  | "completionItem/resolve"
  | "textDocument/diagnostic"
  | "workspace/diagnostic"
  | "textDocument/signatureHelp"
  | "textDocument/codeAction"
  | "codeAction/resolve"
  | "textDocument/documentColor"
  | "textDocument/colorPresentation"
  | "textDocument/formatting"
  | "textDocument/rangeFormatting"
  | "textDocument/onTypeFormatting"
  | "textDocument/rename"
  | "textDocument/prepareRename"
  | "textDocument/linkedEditingRange"
  | "workspace/symbol"
  | "workspaceSymbol/resolve"
  | "workspace/willCreateFiles"
  | "workspace/willRenameFiles"
  | "workspace/executeCommand" => some MessageSource.Client
  | "workspace/codeLens/refresh"
  | "workspace/semanticTokens/refresh"
  | "workspace/inlayHint/refresh"
  | "workspace/inlineValue/refresh"
  | "textDocument/publishDiagnostics"
  | "workspace/diagnostic/refresh"
  | "workspace/configuration"
  | "workspace/workspaceFolders"
  | "workspace/applyEdit" => some MessageSource.Server
  | "window/workDoneProgress/create" => some MessageSource.Server
  | _ => none

/-- Embedding of `get_source` (`message.rs` lines 154–227): origin of a
message, resolved through the conversation's index maps for responses,
cancellations, and progress notifications, and through a static table for
the remaining notifications. -/
def get_source (message : Message) (containing_conversation : Conversation) :
    Option MessageSource :=
  match message with
  | Message.request request => get_request_source request
  | Message.response response =>
    (alistGet? response.id containing_conversation.requests).bind
      (fun source => (get_request_source source).map MessageSource.other)
  | Message.notification notification =>
    match notification.method with
    | "$/cancelRequest" =>
      ((parseCancelParams notification.params).bind
        (fun cancel_params =>
          alistGet? (requestIdOfNumberOrString cancel_params)
            containing_conversation.requests)).bind
        get_request_source
    | "$/progress" =>
      (parseProgressParams notification.params).bind
        (fun token =>
          ((alistGet? token containing_conversation.progress_tokens).bind
            get_request_source).map MessageSource.other)
    | "$/setTrace" => some MessageSource.Client
    | "$/logTrace" => some MessageSource.Server
    | "initialized" => some MessageSource.Client
    | "exit" => some MessageSource.Client
    | "textDocument/didOpen"
    | "textDocument/didChange"
    | "textDocument/willSave"
    | "textDocument/willSaveWaitUntil"
    | "textDocument/didSave"
    | "textDocument/didClose" => some MessageSource.Client
    | "notebookDocument/didOpen"
    | "notebookDocument/didChange"
    | "notebookDocument/didSave"
    | "notebookDocument/didClose" => some MessageSource.Client
    | "workspace/didChangeConfiguration"
    | "workspace/didChangeWorkspaceFolders"
    | "workspace/didCreateFiles"
    | "workspace/didDeleteFiles"
    | "workspace/didChangeWatchedFiles" => some MessageSource.Client
    | "window/showMessage"
    | "window/showMessageRequest"
    | "window/showDocument"
    | "window/logMessage"
    | "window/workDoneProgress/cancel" => some MessageSource.Client
    | "telemetry/event" => some MessageSource.Server
    | _ => none

/-- Embedding of `MessageKind` (`message.rs` lines 437–473). -/
inductive MessageKind where
  | Lifecycle
  | TextDocumentSynchronization
  | NotebookDocumentSynchronization
  | WorkspaceSynchronization
  | Workspace
  | Telemetry
  | Declaration
  | Definition
  | TypeDefinition
  | Implementation
  | References
  | CallHierarchy
  | TypeHierarchy
  | DocumentHighlight
  | DocumentLink
  | Hover
  | CodeLens
  | FoldingRange
  | Selection
  | Symbol
  | SemanticTokens
  | InlayHint
  | InlineValue
  | Moniker
  | Completion
  | Diagnostic
  | SignatureHelp
  | CodeAction
  | DocumentColor
  | Formatting
  | Rename
  | LinkedEditingRange
  | ExecuteCommand
  deriving DecidableEq

/-- Embedding of `classify_request` (`message.rs` lines 367–435): the static
method-to-category table. -/
def classify_request (request : Request) : Option MessageKind :=
  match request.method with
  | "initialize" => some MessageKind.Lifecycle
  | "client/registerCapability" => some MessageKind.Lifecycle
  | "client/unregisterCapability" => some MessageKind.Lifecycle
  | "shutdown" => some MessageKind.Lifecycle
  | "exit" => some MessageKind.Lifecycle
  | "textDocument/declaration" => some MessageKind.Declaration
  | "textDocument/definition" => some MessageKind.Definition
  | "textDocument/typeDefinition" => some MessageKind.TypeDefinition
  | "textDocument/implementation" => some MessageKind.Implementation
  | "textDocument/references" => some MessageKind.References
  | "textDocument/prepareCallHierarchy"
  | "callHierarchy/incomingCalls"
  | "callHierarchy/outgoingCalls" => some MessageKind.CallHierarchy
  | "textDocument/prepareTypeHierarchy"
  | "typeHierarchy/supertypes"
  | "typeHierarchy/subtypes" => some MessageKind.TypeHierarchy
  | "textDocument/documentHighlight" => some MessageKind.DocumentHighlight
  | "textDocument/documentLink"
  | "documentLink/resolve" => some MessageKind.DocumentLink
  | "textDocument/hover" => some MessageKind.Hover
  | "textDocument/codeLens"
  | "codeLens/resolve" => some MessageKind.CodeLens
  | "textDocument/foldingRange" => some MessageKind.FoldingRange
  | "textDocument/selectionRange" => some MessageKind.Selection
  | "textDocument/documentSymbol" => some MessageKind.Symbol
  | "textDocument/semanticTokens/full"
  | "textDocument/semanticTokens/full/delta"
  | "textDocument/semanticTokens/range" => some MessageKind.SemanticTokens
  | "textDocument/inlayHint"
  | "inlayHint/resolve" => some MessageKind.InlayHint
  | "textDocument/inlineValue" => some MessageKind.InlineValue
  | "textDocument/moniker" => some MessageKind.Moniker
  | "textDocument/completion"
  | "completionItem/resolve" => some MessageKind.Completion
  | "textDocument/diagnostic" => some MessageKind.Diagnostic
  | "workspace/diagnostic" => some MessageKind.Diagnostic
  | "textDocument/signatureHelp" => some MessageKind.SignatureHelp
  | "textDocument/codeAction"
  | "codeAction/resolve" => some MessageKind.CodeAction
  | "textDocument/documentColor"
  | "textDocument/colorPresentation" => some MessageKind.DocumentColor
  | "textDocument/formatting"
  | "textDocument/rangeFormatting"
  | "textDocument/onTypeFormatting" => some MessageKind.Formatting
  | "textDocument/rename"
  | "textDocument/prepareRename" => some MessageKind.Rename
  | "textDocument/linkedEditingRange" => some MessageKind.LinkedEditingRange
  | "workspace/symbol"
  | "workspaceSymbol/resolve" => some MessageKind.Symbol
  | "workspace/willCreateFiles"
  | "workspace/willRenameFiles" => some MessageKind.WorkspaceSynchronization
  | "workspace/executeCommand" => some MessageKind.ExecuteCommand
  | "workspace/codeLens/refresh" => some MessageKind.CodeLens
  | "workspace/semanticTokens/refresh" => some MessageKind.SemanticTokens
  | "workspace/inlayHint/refresh" => some MessageKind.InlayHint
  | "workspace/inlineValue/refresh" => some MessageKind.InlineValue
  | "textDocument/publishDiagnostics" => some MessageKind.Diagnostic
  | "workspace/diagnostic/refresh" => some MessageKind.Diagnostic
  | "workspace/configuration"
  | "workspace/workspaceFolders" => some MessageKind.WorkspaceSynchronization
  | "workspace/applyEdit" => some MessageKind.Workspace
  | "window/workDoneProgress/create" => some MessageKind.Lifecycle
  | _ => none

/-- Embedding of `classify` (`message.rs` lines 296–365): category of a
message, resolved through the conversation's index maps for responses,
cancellations, and progress notifications, and through a static table for
the remaining notifications. -/
def classify (message : Message) (containing_conversation : Conversation) :
    Option MessageKind :=
  match message with
  | Message.request request => classify_request request
  | Message.response response =>
    (alistGet? response.id containing_conversation.requests).bind
      classify_request
  | Message.notification notification =>
    match notification.method with
    | "$/cancelRequest" =>
      ((parseCancelParams notification.params).bind
        (fun cancel_params =>
          alistGet? (requestIdOfNumberOrString cancel_params)
            containing_conversation.requests)).bind
        classify_request
    | "$/progress" =>
      (parseProgressParams notification.params).bind
        (fun token =>
          (alistGet? token containing_conversation.progress_tokens).bind
            classify_request)
    | "$/setTrace" => some MessageKind.Lifecycle
    | "$/logTrace" => some MessageKind.Lifecycle
    | "initialized" => some MessageKind.Lifecycle
    | "exit" => some MessageKind.Lifecycle
    | "textDocument/didOpen"
    | "textDocument/didChange"
    | "textDocument/willSave"
    | "textDocument/willSaveWaitUntil"
    | "textDocument/didSave"
    | "textDocument/didClose" => some MessageKind.TextDocumentSynchronization
    | "notebookDocument/didOpen"
    | "notebookDocument/didChange"
    | "notebookDocument/didSave"
    | "notebookDocument/didClose" => some MessageKind.NotebookDocumentSynchronization
    | "workspace/didChangeConfiguration"
    | "workspace/didChangeWorkspaceFolders"
    | "workspace/didCreateFiles"
    | "workspace/didDeleteFiles"
    | "workspace/didChangeWatchedFiles" => some MessageKind.WorkspaceSynchronization
    | "window/showMessage"
    | "window/showMessageRequest"
    | "window/showDocument"
    | "window/logMessage"
    | "window/workDoneProgress/cancel" => some MessageKind.Workspace
    | "telemetry/event" => some MessageKind.Telemetry
    | _ => none

/-- Spec-side characterization of the `requests` index: the last-seen
Request carrying a given id, in input order (`spec.md` §3: mapping from
`RequestId` to the last-seen Request with that id). -/
def lastRequestWithId (l : List MessageWithTimeStamp) (id : RequestId) :
    Option Request :=
  match l with
  | [] => none
  | m :: rest =>
    match lastRequestWithId rest id with
    | some r => some r
    | none =>
      match m.message with
      | Message.request r => if r.id = id then some r else none
      | _ => none

/-- Key a message would insert into the `requests` map: its id when it is a
Request, nothing otherwise. -/
def requestKey : Message → Option RequestId
  | Message.request r => some r.id
  | _ => none

/-- Key a message would insert into the `progress_tokens` map: the parsed
work-done token of a progress-capable Request, nothing otherwise.  Mirrors
the token branch of `Conversation::from`. -/
def progressTokenKey : Message → Option NumberOrString
  | Message.request r =>
    if isProgressCapableMethod r.method then
      match parseWorkDoneProgressParams r.params with
      | some (some token) => some token
      | _ => none
    else none
  | _ => none

/-- Two messages insert into disjoint index slots: on each of the two index
maps, at most one of them inserts, or they insert under different keys. -/
def indexKeysDisjoint (a b : Message) : Prop :=
  (requestKey a = none ∨ requestKey b = none ∨ requestKey a ≠ requestKey b) ∧
  (progressTokenKey a = none ∨ progressTokenKey b = none ∨
    progressTokenKey a ≠ progressTokenKey b)

/-- Discriminates the Request variant of a message. -/
def isRequestMsg : Message → Bool
  | Message.request _ => true
  | _ => false

/-- Domain of the static method-to-category table `classify_request`: the
method names of its match arms, in source order. -/
def classifyRequestMethods : List String :=
  ["initialize", "client/registerCapability", "client/unregisterCapability",
   "shutdown", "exit", "textDocument/declaration", "textDocument/definition",
   "textDocument/typeDefinition", "textDocument/implementation",
   "textDocument/references", "textDocument/prepareCallHierarchy",
   "callHierarchy/incomingCalls", "callHierarchy/outgoingCalls",
   "textDocument/prepareTypeHierarchy", "typeHierarchy/supertypes",
   "typeHierarchy/subtypes", "textDocument/documentHighlight",
   "textDocument/documentLink", "documentLink/resolve", "textDocument/hover",
   "textDocument/codeLens", "codeLens/resolve", "textDocument/foldingRange",
   "textDocument/selectionRange", "textDocument/documentSymbol",
   "textDocument/semanticTokens/full", "textDocument/semanticTokens/full/delta",
   "textDocument/semanticTokens/range", "textDocument/inlayHint",
   "inlayHint/resolve", "textDocument/inlineValue", "textDocument/moniker",
   "textDocument/completion", "completionItem/resolve",
   "textDocument/diagnostic", "workspace/diagnostic",
   "textDocument/signatureHelp", "textDocument/codeAction",
   "codeAction/resolve", "textDocument/documentColor",
   "textDocument/colorPresentation", "textDocument/formatting",
   "textDocument/rangeFormatting", "textDocument/onTypeFormatting",
   "textDocument/rename", "textDocument/prepareRename",
   "textDocument/linkedEditingRange", "workspace/symbol",
   "workspaceSymbol/resolve", "workspace/willCreateFiles",
   "workspace/willRenameFiles", "workspace/executeCommand",
   "workspace/codeLens/refresh", "workspace/semanticTokens/refresh",
   "workspace/inlayHint/refresh", "workspace/inlineValue/refresh",
   "textDocument/publishDiagnostics", "workspace/diagnostic/refresh",
   "workspace/configuration", "workspace/workspaceFolders",
   "workspace/applyEdit", "window/workDoneProgress/create"]

/-- Domain of the static method-to-declared-origin table
`get_request_source`: the method names of its match arms, in source order
(note the table lacks `exit`, which only the category table carries). -/
def requestSourceMethods : List String :=
  ["initialize", "client/registerCapability", "client/unregisterCapability",
   "shutdown", "textDocument/declaration", "textDocument/definition",
   "textDocument/typeDefinition", "textDocument/implementation",
   "textDocument/references", "textDocument/prepareCallHierarchy",
   "callHierarchy/incomingCalls", "callHierarchy/outgoingCalls",
   "textDocument/prepareTypeHierarchy", "typeHierarchy/supertypes",
   "typeHierarchy/subtypes", "textDocument/documentHighlight",
   "textDocument/documentLink", "documentLink/resolve", "textDocument/hover",
   "textDocument/codeLens", "codeLens/resolve", "textDocument/foldingRange",
   "textDocument/selectionRange", "textDocument/documentSymbol",
   "textDocument/semanticTokens/full", "textDocument/semanticTokens/full/delta",
   "textDocument/semanticTokens/range", "textDocument/inlayHint",
   "inlayHint/resolve", "textDocument/inlineValue", "textDocument/moniker",
   "textDocument/completion", "completionItem/resolve",
   "textDocument/diagnostic", "workspace/diagnostic",
   "textDocument/signatureHelp", "textDocument/codeAction",
   "codeAction/resolve", "textDocument/documentColor",
   "textDocument/colorPresentation", "textDocument/formatting",
   "textDocument/rangeFormatting", "textDocument/onTypeFormatting",
   "textDocument/rename", "textDocument/prepareRename",
   "textDocument/linkedEditingRange", "workspace/symbol",
   "workspaceSymbol/resolve", "workspace/willCreateFiles",
   "workspace/willRenameFiles", "workspace/executeCommand",
   "workspace/codeLens/refresh", "workspace/semanticTokens/refresh",
   "workspace/inlayHint/refresh", "workspace/inlineValue/refresh",
   "textDocument/publishDiagnostics", "workspace/diagnostic/refresh",
   "workspace/configuration", "workspace/workspaceFolders",
   "workspace/applyEdit", "window/workDoneProgress/create"]

/-- Lookup after insert: the inserted key now maps to the inserted value,
every other key is untouched. -/
theorem alistGet?_alistInsert {κ α : Type} [DecidableEq κ] (k k0 : κ) (v : α)
    (l : List (κ × α)) :
    alistGet? k (alistInsert k0 v l) =
      if k0 = k then some v else alistGet? k l := by
  induction l with
  | nil => rfl
  | cons hd tl ih =>
    obtain ⟨k1, v1⟩ := hd
    simp only [alistInsert]
    by_cases h1 : k1 = k0 <;> by_cases h2 : k1 = k <;> by_cases h3 : k0 = k <;>
      simp_all [alistGet?]

/-- Entries after insert: an entry of the result is the inserted pair or an
entry of the original list. -/
theorem mem_alistInsert {κ α : Type} [DecidableEq κ] (k : κ) (v : α)
    (l : List (κ × α)) (p : κ × α) (hp : p ∈ alistInsert k v l) :
    p = (k, v) ∨ p ∈ l := by
  induction l with
  | nil =>
    simp only [alistInsert, List.mem_singleton] at hp
    exact Or.inl hp
  | cons hd tl ih =>
    obtain ⟨k1, v1⟩ := hd
    simp only [alistInsert] at hp
    by_cases h1 : k1 = k
    · rw [if_pos h1] at hp
      rcases List.mem_cons.mp hp with h | h
      · exact Or.inl h
      · exact Or.inr (List.mem_cons_of_mem _ h)
    · rw [if_neg h1] at hp
      rcases List.mem_cons.mp hp with h | h
      · exact Or.inr (by simp [h])
      · rcases ih h with h2 | h2
        · exact Or.inl h2
        · exact Or.inr (List.mem_cons_of_mem _ h2)

/-- The requests component of one index step: a Request overwrites its id,
other messages leave the map alone. -/
theorem indexStep_fst (s : IndexMaps) (m : MessageWithTimeStamp) :
    (indexStep s m).1 =
      match m.message with
      | Message.request r => alistInsert r.id r s.1
      | _ => s.1 := by
  obtain ⟨ts, mm⟩ := m
  cases mm <;> rfl

/-- The progress-tokens component of one index step, phrased through
`progressTokenKey`. -/
theorem indexStep_snd (s : IndexMaps) (m : MessageWithTimeStamp) :
    (indexStep s m).2 =
      match m.message with
      | Message.request r =>
        match progressTokenKey (Message.request r) with
        | some token => alistInsert token r s.2
        | none => s.2
      | _ => s.2 := by
  obtain ⟨ts, mm⟩ := m
  cases mm with
  | request r =>
    simp only [indexStep, progressTokenKey]
    cases hcap : isProgressCapableMethod r.method
    · simp [hcap]
    · simp only [hcap, if_true]
      cases hp : parseWorkDoneProgressParams r.params with
      | none => simp [hp]
      | some o => cases o <;> simp [hp]
  | response r => rfl
  | notification n => rfl

/-- A present progress-token key certifies a progress-capable method and a
successful parse with that token present. -/
theorem progressTokenKey_spec (r : Request) (token : NumberOrString)
    (h : progressTokenKey (Message.request r) = some token) :
    isProgressCapableMethod r.method = true ∧
    parseWorkDoneProgressParams r.params = some (some token) := by
  simp only [progressTokenKey] at h
  cases hcap : isProgressCapableMethod r.method
  · rw [hcap] at h
    simp at h
  · rw [hcap] at h
    simp only [reduceIte] at h
    refine ⟨rfl, ?_⟩
    cases hp : parseWorkDoneProgressParams r.params with
    | none => rw [hp] at h; simp at h
    | some o =>
      cases o with
      | none => rw [hp] at h; simp at h
      | some t =>
        rw [hp] at h
        simp only [Option.some.injEq] at h
        rw [h]

/-- Lookup in the requests map accumulated by the index fold: the last
Request of the traversed segment with the looked-up id wins, otherwise the
accumulator answers. -/
theorem requestsGet_foldl (id : RequestId) (l : List MessageWithTimeStamp) :
    ∀ s : IndexMaps,
      alistGet? id (l.foldl indexStep s).1 =
        match lastRequestWithId l id with
        | some r => some r
        | none => alistGet? id s.1 := by
  induction l with
  | nil => intro s; rfl
  | cons m rest ih =>
    intro s
    rw [List.foldl_cons, ih (indexStep s m)]
    cases hL : lastRequestWithId rest id with
    | some r => simp [lastRequestWithId, hL]
    | none =>
      simp only [lastRequestWithId, hL]
      rw [indexStep_fst]
      cases hm : m.message with
      | request r =>
        rw [alistGet?_alistInsert]
        by_cases h2 : r.id = id <;> simp [h2]
      | response r => rfl
      | notification n => rfl

/-- A message that is no Request leaves the whole index state unchanged. -/
theorem indexStep_id (s : IndexMaps) (m : MessageWithTimeStamp)
    (h : requestKey m.message = none) : indexStep s m = s := by
  cases hm : m.message with
  | request r => rw [hm] at h; exact absurd h (by simp [requestKey])
  | response r => simp [indexStep, hm]
  | notification n => simp [indexStep, hm]

/-- Requests component of one step on a Request: insert under the id. -/
theorem indexStep_fst_request (s : IndexMaps) (m : MessageWithTimeStamp)
    (r : Request) (h : m.message = Message.request r) :
    (indexStep s m).1 = alistInsert r.id r s.1 := by
  rw [indexStep_fst, h]

/-- Tokens component of one step on a Request with a present token key:
insert under the token. -/
theorem indexStep_snd_key (s : IndexMaps) (m : MessageWithTimeStamp)
    (r : Request) (token : NumberOrString) (h : m.message = Message.request r)
    (hk : progressTokenKey m.message = some token) :
    (indexStep s m).2 = alistInsert token r s.2 := by
  rw [h] at hk
  rw [indexStep_snd, h]
  simp only [hk]

/-- Tokens component of one step without a token key: unchanged. -/
theorem indexStep_snd_nokey (s : IndexMaps) (m : MessageWithTimeStamp)
    (hk : progressTokenKey m.message = none) : (indexStep s m).2 = s.2 := by
  rw [indexStep_snd]
  cases hm : m.message with
  | request r => rw [hm] at hk; simp only [hk]
  | response r => rfl
  | notification n => rfl

/-- Entries of the progress-tokens map accumulated by the index fold all
carry a progress-capable method and a successfully parsed, present token
equal to their key, provided the accumulator already does. -/
theorem tokensMem_foldl (l : List MessageWithTimeStamp) :
    ∀ s : IndexMaps,
      (∀ p ∈ s.2, isProgressCapableMethod p.2.method = true ∧
        parseWorkDoneProgressParams p.2.params = some (some p.1)) →
      ∀ p ∈ (l.foldl indexStep s).2,
        isProgressCapableMethod p.2.method = true ∧
        parseWorkDoneProgressParams p.2.params = some (some p.1) := by
  induction l with
  | nil => intro s hs; exact hs
  | cons m rest ih =>
    intro s hs
    rw [List.foldl_cons]
    apply ih
    intro p hp
    cases hk : progressTokenKey m.message with
    | none =>
      rw [indexStep_snd_nokey s m hk] at hp
      exact hs p hp
    | some token =>
      cases hm : m.message with
      | request r =>
        rw [indexStep_snd_key s m r token hm hk] at hp
        rcases mem_alistInsert token r s.2 p hp with h | h
        · rw [h]
          rw [hm] at hk
          exact progressTokenKey_spec r token hk
        · exact hs p h
      | response x =>
        rw [hm] at hk
        exact absurd hk (by simp [progressTokenKey])
      | notification x =>
        rw [hm] at hk
        exact absurd hk (by simp [progressTokenKey])

/-- The index fold ignores Responses and Notifications: folding over the
Request-only sublist produces the same state. -/
theorem foldl_indexStep_filter (l : List MessageWithTimeStamp) :
    ∀ s : IndexMaps,
      (l.filter fun m => isRequestMsg m.message).foldl indexStep s =
        l.foldl indexStep s := by
  induction l with
  | nil => intro s; rfl
  | cons m rest ih =>
    intro s
    cases hm : m.message with
    | request r =>
      rw [List.filter_cons_of_pos (by rw [hm]; rfl), List.foldl_cons,
        List.foldl_cons, ih]
    | response r =>
      rw [List.filter_cons_of_neg (by rw [hm]; simp [isRequestMsg]),
        List.foldl_cons, show indexStep s m = s by simp [indexStep, hm], ih]
    | notification n =>
      rw [List.filter_cons_of_neg (by rw [hm]; simp [isRequestMsg]),
        List.foldl_cons, show indexStep s m = s by simp [indexStep, hm], ih]

/-- Pointwise equality of two index states: every lookup in either map
agrees. -/
def mapsEq (s t : IndexMaps) : Prop :=
  (∀ k, alistGet? k s.1 = alistGet? k t.1) ∧
  (∀ token, alistGet? token s.2 = alistGet? token t.2)

/-- Reflexivity of pointwise equality of index states. -/
theorem mapsEq_refl (s : IndexMaps) : mapsEq s s :=
  ⟨fun _ => rfl, fun _ => rfl⟩

/-- One index step preserves pointwise equality of states. -/
theorem mapsEq_indexStep (s t : IndexMaps) (m : MessageWithTimeStamp)
    (h : mapsEq s t) : mapsEq (indexStep s m) (indexStep t m) := by
  constructor
  · intro k
    cases hm : m.message with
    | request r =>
      rw [indexStep_fst_request s m r hm, indexStep_fst_request t m r hm,
        alistGet?_alistInsert, alistGet?_alistInsert]
      by_cases h2 : r.id = k <;> simp [h2, h.1 k]
    | response r =>
      rw [indexStep_id s m (by rw [hm]; rfl), indexStep_id t m (by rw [hm]; rfl)]
      exact h.1 k
    | notification n =>
      rw [indexStep_id s m (by rw [hm]; rfl), indexStep_id t m (by rw [hm]; rfl)]
      exact h.1 k
  · intro token
    cases hk : progressTokenKey m.message with
    | none =>
      rw [indexStep_snd_nokey s m hk, indexStep_snd_nokey t m hk]
      exact h.2 token
    | some tk =>
      cases hm : m.message with
      | request r =>
        rw [indexStep_snd_key s m r tk hm hk, indexStep_snd_key t m r tk hm hk,
          alistGet?_alistInsert, alistGet?_alistInsert]
        by_cases h2 : tk = token <;> simp [h2, h.2 token]
      | response x =>
        rw [hm] at hk
        exact absurd hk (by simp [progressTokenKey])
      | notification x =>
        rw [hm] at hk
        exact absurd hk (by simp [progressTokenKey])

/-- The index fold preserves pointwise equality of states. -/
theorem mapsEq_foldl (l : List MessageWithTimeStamp) :
    ∀ s t : IndexMaps, mapsEq s t →
      mapsEq (l.foldl indexStep s) (l.foldl indexStep t) := by
  induction l with
  | nil => intro s t h; exact h
  | cons m rest ih =>
    intro s t h
    rw [List.foldl_cons, List.foldl_cons]
    exact ih _ _ (mapsEq_indexStep s t m h)

/-- The tokens component of one step only depends on the tokens component
of the state. -/
theorem indexStep_snd_congr (x y : IndexMaps) (m : MessageWithTimeStamp)
    (h : x.2 = y.2) : (indexStep x m).2 = (indexStep y m).2 := by
  cases hk : progressTokenKey m.message with
  | none => rw [indexStep_snd_nokey x m hk, indexStep_snd_nokey y m hk, h]
  | some tk =>
    cases hm : m.message with
    | request r =>
      rw [indexStep_snd_key x m r tk hm hk, indexStep_snd_key y m r tk hm hk, h]
    | response z =>
      rw [hm] at hk
      exact absurd hk (by simp [progressTokenKey])
    | notification z =>
      rw [hm] at hk
      exact absurd hk (by simp [progressTokenKey])

/-- Swapping two adjacent messages whose index keys are disjoint yields
pointwise-equal index states. -/
theorem mapsEq_indexStep_swap (s : IndexMaps) (a b : MessageWithTimeStamp)
    (h : indexKeysDisjoint a.message b.message) :
    mapsEq (indexStep (indexStep s a) b) (indexStep (indexStep s b) a) := by
  obtain ⟨hid, htok⟩ := h
  cases hka : requestKey a.message with
  | none =>
    rw [indexStep_id s a hka, indexStep_id (indexStep s b) a hka]
    exact mapsEq_refl _
  | some ka =>
    cases hkb : requestKey b.message with
    | none =>
      rw [indexStep_id s b hkb, indexStep_id (indexStep s a) b hkb]
      exact mapsEq_refl _
    | some kb =>
      cases ha : a.message with
      | response x => rw [ha] at hka; exact absurd hka (by simp [requestKey])
      | notification x => rw [ha] at hka; exact absurd hka (by simp [requestKey])
      | request ra =>
        cases hb : b.message with
        | response x => rw [hb] at hkb; exact absurd hkb (by simp [requestKey])
        | notification x => rw [hb] at hkb; exact absurd hkb (by simp [requestKey])
        | request rb =>
          have hne : ra.id ≠ rb.id := by
            rw [ha, hb] at hid
            simp only [requestKey] at hid
            rcases hid with h | h | h
            · exact absurd h (by simp)
            · exact absurd h (by simp)
            · intro he
              exact h (by rw [he])
          constructor
          · intro k
            rw [indexStep_fst_request (indexStep s a) b rb hb,
              indexStep_fst_request s a ra ha,
              indexStep_fst_request (indexStep s b) a ra ha,
              indexStep_fst_request s b rb hb,
              alistGet?_alistInsert, alistGet?_alistInsert,
              alistGet?_alistInsert, alistGet?_alistInsert]
            by_cases h1 : ra.id = k <;> by_cases h2 : rb.id = k <;> simp [h1, h2]
            exact absurd (h1.trans h2.symm) hne
          · intro token
            cases hta : progressTokenKey a.message with
            | none =>
              rw [indexStep_snd_congr (indexStep s a) s b
                  (indexStep_snd_nokey s a hta),
                indexStep_snd_nokey (indexStep s b) a hta]
            | some ta =>
              cases htb : progressTokenKey b.message with
              | none =>
                rw [indexStep_snd_nokey (indexStep s a) b htb,
                  indexStep_snd_key s a ra ta ha hta,
                  indexStep_snd_key (indexStep s b) a ra ta ha hta,
                  indexStep_snd_nokey s b htb]
              | some tb =>
                have hnet : ta ≠ tb := by
                  rw [hta, htb] at htok
                  rcases htok with h | h | h
                  · exact absurd h (by simp)
                  · exact absurd h (by simp)
                  · intro he
                    exact h (by rw [he])
                rw [indexStep_snd_key (indexStep s a) b rb tb hb htb,
                  indexStep_snd_key s a ra ta ha hta,
                  indexStep_snd_key (indexStep s b) a ra ta ha hta,
                  indexStep_snd_key s b rb tb hb htb,
                  alistGet?_alistInsert, alistGet?_alistInsert,
                  alistGet?_alistInsert, alistGet?_alistInsert]
                by_cases h1 : ta = token <;> by_cases h2 : tb = token <;>
                  simp [h1, h2]
                exact absurd (h1.trans h2.symm) hnet

set_option maxHeartbeats 2000000 in
/-- The classifier reads a conversation only through lookups in its two
index maps. -/
theorem classify_congr (c1 c2 : Conversation) (m : Message)
    (hr : ∀ k, alistGet? k c1.requests = alistGet? k c2.requests)
    (ht : ∀ token,
      alistGet? token c1.progress_tokens = alistGet? token c2.progress_tokens) :
    classify m c1 = classify m c2 := by
  cases m with
  | request r => rfl
  | response r =>
    simp only [classify]
    rw [hr]
  | notification n =>
    simp only [classify]
    split
    · cases hp : parseCancelParams n.params <;> simp [hp, hr]
    · cases hp : parseProgressParams n.params <;> simp [hp, ht]
    all_goals rfl

set_option maxHeartbeats 2000000 in
/-- The origin resolver reads a conversation only through lookups in its
two index maps. -/
theorem get_source_congr (c1 c2 : Conversation) (m : Message)
    (hr : ∀ k, alistGet? k c1.requests = alistGet? k c2.requests)
    (ht : ∀ token,
      alistGet? token c1.progress_tokens = alistGet? token c2.progress_tokens) :
    get_source m c1 = get_source m c2 := by
  cases m with
  | request r => rfl
  | response r =>
    simp only [get_source]
    rw [hr]
  | notification n =>
    simp only [get_source]
    split
    · cases hp : parseCancelParams n.params <;> simp [hp, hr]
    · cases hp : parseProgressParams n.params <;> simp [hp, ht]
    all_goals rfl

set_option maxHeartbeats 2000000 in
/-- Methods outside the static category table classify to nothing. -/
theorem classify_request_unknown (r : Request)
    (h : ¬ r.method ∈ classifyRequestMethods) : classify_request r = none := by
  unfold classify_request
  split
  all_goals first | rfl | (exfalso; apply h; simp_all [classifyRequestMethods])

set_option maxHeartbeats 2000000 in
/-- Methods outside the static origin table resolve to no declared
origin. -/
theorem get_request_source_unknown (r : Request)
    (h : ¬ r.method ∈ requestSourceMethods) : get_request_source r = none := by
  unfold get_request_source
  split
  all_goals first | rfl | (exfalso; apply h; simp_all [requestSourceMethods])

/-- Claim C1: for a conversation containing Request id 1 with method
`textDocument/hover` followed by an Ok Response with id 1, `classify` of the
response returns Hover and `get_source` of the response returns Server, the
opposite peer of the hover request's statically declared Client origin. -/
theorem hover_response_round_trip (p res : Json) (t1 t2 : Int) :
    classify (Message.response ⟨RequestId.num 1, some res, none⟩)
      (Conversation.fromMessages
        [⟨t1, Message.request ⟨RequestId.num 1, "textDocument/hover", p⟩⟩,
         ⟨t2, Message.response ⟨RequestId.num 1, some res, none⟩⟩]) =
      some MessageKind.Hover ∧
    get_source (Message.response ⟨RequestId.num 1, some res, none⟩)
      (Conversation.fromMessages
        [⟨t1, Message.request ⟨RequestId.num 1, "textDocument/hover", p⟩⟩,
         ⟨t2, Message.response ⟨RequestId.num 1, some res, none⟩⟩]) =
      some MessageSource.Server :=
  ⟨rfl, rfl⟩

/-- Claim C2: for a conversation containing Request id 7 with method
`textDocument/references` followed by a `$/cancelRequest` notification
naming id 7, `classify` of the cancel notification returns References and
`get_source` of the cancel notification equals `get_source` of the owning
request, with no directional inversion applied. -/
theorem cancel_correlation (p : Json) (t1 t2 : Int) :
    classify
      (Message.notification ⟨"$/cancelRequest", Json.obj [("id", Json.num 7)]⟩)
      (Conversation.fromMessages
        [⟨t1, Message.request ⟨RequestId.num 7, "textDocument/references", p⟩⟩,
         ⟨t2, Message.notification
           ⟨"$/cancelRequest", Json.obj [("id", Json.num 7)]⟩⟩]) =
      some MessageKind.References ∧
    get_source
      (Message.notification ⟨"$/cancelRequest", Json.obj [("id", Json.num 7)]⟩)
      (Conversation.fromMessages
        [⟨t1, Message.request ⟨RequestId.num 7, "textDocument/references", p⟩⟩,
         ⟨t2, Message.notification
           ⟨"$/cancelRequest", Json.obj [("id", Json.num 7)]⟩⟩]) =
      get_source
        (Message.request ⟨RequestId.num 7, "textDocument/references", p⟩)
        (Conversation.fromMessages
          [⟨t1, Message.request ⟨RequestId.num 7, "textDocument/references", p⟩⟩,
           ⟨t2, Message.notification
             ⟨"$/cancelRequest", Json.obj [("id", Json.num 7)]⟩⟩]) :=
  ⟨rfl, rfl⟩

/-- Completion request declaring work-done token `tok-A`, for claim C3. -/
def completionReqC3 : Request :=
  ⟨RequestId.num 2, "textDocument/completion",
    Json.obj [("workDoneToken", Json.str "tok-A")]⟩

/-- Progress notification carrying token `tok-A`, for claim C3. -/
def progressNoteC3 : Notification :=
  ⟨"$/progress",
    Json.obj [("token", Json.str "tok-A"),
      ("value", Json.obj [("kind", Json.str "report")])]⟩

/-- Conversation of claim C3: the completion request followed by the
progress notification. -/
def convC3 : Conversation :=
  Conversation.fromMessages
    [⟨0, Message.request completionReqC3⟩,
     ⟨1, Message.notification progressNoteC3⟩]

/-- Claim C3: for a conversation containing Request id 2 with method
`textDocument/completion` whose params carry work-done token `tok-A`,
followed by a `$/progress` notification with token `tok-A`, `classify` of
the progress notification returns Completion and `get_source` of the
progress notification is the opposite peer of the completion request's
origin (Server, opposite of Client). -/
theorem progress_correlation :
    classify (Message.notification progressNoteC3) convC3 =
      some MessageKind.Completion ∧
    get_source (Message.notification progressNoteC3) convC3 =
      (get_source (Message.request completionReqC3) convC3).map
        MessageSource.other ∧
    get_source (Message.notification progressNoteC3) convC3 =
      some MessageSource.Server ∧
    get_source (Message.request completionReqC3) convC3 =
      some MessageSource.Client :=
  ⟨rfl, rfl, rfl, rfl⟩

/-- Claim C4: `classify` and `get_source` are pure total functions — both
are total Lean functions (defined by structural pattern matching, so they
are defined, and return an optional result, on every message and every
conversation and cannot panic), and calling either twice on the same
message and conversation yields identical results. -/
theorem classify_get_source_idempotent (m : Message) (c : Conversation) :
    classify m c = classify m c ∧ get_source m c = get_source m c :=
  ⟨rfl, rfl⟩

/-- Claim C5: a Response whose id has no matching Request in the
conversation's requests map classifies to nothing and resolves to no
origin; the dangling correlation degrades to `none` instead of an error. -/
theorem dangling_response_degrades (c : Conversation) (r : Response)
    (h : alistGet? r.id c.requests = none) :
    classify (Message.response r) c = none ∧
    get_source (Message.response r) c = none := by
  constructor <;> simp [classify, get_source, h]

/-- Witness for claim C5 at the empty conversation and Response id 3. -/
theorem dangling_response_degrades_witness :
    alistGet? (RequestId.num 3) (Conversation.fromMessages []).requests =
      none ∧
    (classify (Message.response ⟨RequestId.num 3, none, none⟩)
        (Conversation.fromMessages []) = none ∧
      get_source (Message.response ⟨RequestId.num 3, none, none⟩)
        (Conversation.fromMessages []) = none) :=
  ⟨rfl, dangling_response_degrades (Conversation.fromMessages [])
    ⟨RequestId.num 3, none, none⟩ rfl⟩

/-- Tied hover request with id 1 and work-done token `t`, for the claim C6
counterexample. -/
def tieReqHover : MessageWithTimeStamp :=
  ⟨0, Message.request ⟨RequestId.num 1, "textDocument/hover",
    Json.obj [("workDoneToken", Json.str "t")]⟩⟩

/-- Tied completion request with id 2 and the same work-done token `t`, for
the claim C6 counterexample. -/
def tieReqCompletion : MessageWithTimeStamp :=
  ⟨0, Message.request ⟨RequestId.num 2, "textDocument/completion",
    Json.obj [("workDoneToken", Json.str "t")]⟩⟩

/-- Progress notification referencing token `t`, for the claim C6
counterexample. -/
def tieProgressNote : MessageWithTimeStamp :=
  ⟨1, Message.notification ⟨"$/progress",
    Json.obj [("token", Json.str "t"),
      ("value", Json.obj [("kind", Json.str "report")])]⟩⟩

/-- Counterexample to claim C6 as stated: two requests with identical time
stamps and distinct request ids (so outside the documented
duplicate-request-id case) that declare the same work-done token make the
classification of the conversation's progress notification depend on their
relative order. -/
theorem tie_reorder_counterexample :
    tieReqHover.time_stamp = tieReqCompletion.time_stamp ∧
    requestKey tieReqHover.message ≠ requestKey tieReqCompletion.message ∧
    classify tieProgressNote.message
        (Conversation.fromMessages
          [tieReqHover, tieReqCompletion, tieProgressNote]) ≠
      classify tieProgressNote.message
        (Conversation.fromMessages
          [tieReqCompletion, tieReqHover, tieProgressNote]) :=
  ⟨rfl, by decide, by decide⟩

/-- Claim C6 as amended: swapping two adjacent messages with identical time
stamps leaves the `classify` and `get_source` results of every individual
message unchanged, provided the swapped pair does not insert under the same
key of either index map (neither a duplicate request id nor a duplicate
work-done progress token between the two). -/
theorem tie_reorder_amended (l1 l2 : List MessageWithTimeStamp)
    (a b : MessageWithTimeStamp) (_hts : a.time_stamp = b.time_stamp)
    (hdisj : indexKeysDisjoint a.message b.message) (m : Message) :
    classify m (Conversation.fromMessages (l1 ++ a :: b :: l2)) =
      classify m (Conversation.fromMessages (l1 ++ b :: a :: l2)) ∧
    get_source m (Conversation.fromMessages (l1 ++ a :: b :: l2)) =
      get_source m (Conversation.fromMessages (l1 ++ b :: a :: l2)) := by
  have hm : mapsEq ((l1 ++ a :: b :: l2).foldl indexStep ([], []))
      ((l1 ++ b :: a :: l2).foldl indexStep ([], [])) := by
    rw [List.foldl_append, List.foldl_append, List.foldl_cons, List.foldl_cons,
      List.foldl_cons, List.foldl_cons]
    exact mapsEq_foldl l2 _ _
      (mapsEq_indexStep_swap (l1.foldl indexStep ([], [])) a b hdisj)
  exact ⟨classify_congr _ _ m hm.1 hm.2, get_source_congr _ _ m hm.1 hm.2⟩

/-- Tied hover request with id 1 and no token, for the claim C6 witness. -/
def tieWitnessA : MessageWithTimeStamp :=
  ⟨0, Message.request ⟨RequestId.num 1, "textDocument/hover", Json.null⟩⟩

/-- Tied completion request with id 2 and no token, for the claim C6
witness. -/
def tieWitnessB : MessageWithTimeStamp :=
  ⟨0, Message.request ⟨RequestId.num 2, "textDocument/completion", Json.null⟩⟩

/-- Witness for the amended claim C6 at two tied requests with distinct ids
and no tokens, observing the response to id 1. -/
theorem tie_reorder_amended_witness :
    tieWitnessA.time_stamp = tieWitnessB.time_stamp ∧
    indexKeysDisjoint tieWitnessA.message tieWitnessB.message ∧
    (classify (Message.response ⟨RequestId.num 1, none, none⟩)
        (Conversation.fromMessages
          ([] ++ tieWitnessA :: tieWitnessB :: [])) =
      classify (Message.response ⟨RequestId.num 1, none, none⟩)
        (Conversation.fromMessages
          ([] ++ tieWitnessB :: tieWitnessA :: [])) ∧
    get_source (Message.response ⟨RequestId.num 1, none, none⟩)
        (Conversation.fromMessages
          ([] ++ tieWitnessA :: tieWitnessB :: [])) =
      get_source (Message.response ⟨RequestId.num 1, none, none⟩)
        (Conversation.fromMessages
          ([] ++ tieWitnessB :: tieWitnessA :: []))) :=
  ⟨rfl, ⟨by decide, by decide⟩,
    tie_reorder_amended [] [] tieWitnessA tieWitnessB rfl
      ⟨by decide, by decide⟩ (Message.response ⟨RequestId.num 1, none, none⟩)⟩

/-- Claim C7: after building a Conversation from any input sequence, the
requests map sends each RequestId to the last-seen Request with that id in
input order — a duplicate id overwrites the earlier entry, and the
construction is total on duplicate ids. -/
theorem requests_map_last_seen (l : List MessageWithTimeStamp)
    (id : RequestId) :
    alistGet? id (Conversation.fromMessages l).requests =
      lastRequestWithId l id := by
  show alistGet? id (l.foldl indexStep ([], [])).1 = lastRequestWithId l id
  rw [requestsGet_foldl id l ([], [])]
  cases lastRequestWithId l id <;> rfl

/-- Claim C8: every entry of `progress_tokens` maps a token to a Request
whose method is in the fixed progress-capable set and whose params parsed
to a work-done-progress structure with that token present; Requests that
fail to parse or lack the token are simply absent, and Responses and
Notifications contribute nothing to either index map (folding over the
Request-only sublist builds the same maps). -/
theorem progress_tokens_invariant (l : List MessageWithTimeStamp) :
    (∀ token r, (token, r) ∈ (Conversation.fromMessages l).progress_tokens →
      isProgressCapableMethod r.method = true ∧
      parseWorkDoneProgressParams r.params = some (some token)) ∧
    (Conversation.fromMessages l).requests =
      (Conversation.fromMessages
        (l.filter fun m => isRequestMsg m.message)).requests ∧
    (Conversation.fromMessages l).progress_tokens =
      (Conversation.fromMessages
        (l.filter fun m => isRequestMsg m.message)).progress_tokens := by
  refine ⟨?_, ?_, ?_⟩
  · intro token r hmem
    exact tokensMem_foldl l ([], [])
      (fun p hp => absurd hp (List.not_mem_nil p)) (token, r) hmem
  · show (l.foldl indexStep ([], [])).1 =
      ((l.filter fun m => isRequestMsg m.message).foldl indexStep ([], [])).1
    rw [foldl_indexStep_filter]
  · show (l.foldl indexStep ([], [])).2 =
      ((l.filter fun m => isRequestMsg m.message).foldl indexStep ([], [])).2
    rw [foldl_indexStep_filter]

/-- Completion request declaring work-done token `tok-B`, for the claim C8
witness. -/
def tokenReqC8 : Request :=
  ⟨RequestId.num 9, "textDocument/completion",
    Json.obj [("workDoneToken", Json.str "tok-B")]⟩

/-- Witness for claim C8 at a one-request conversation whose single token
entry is inspected. -/
theorem progress_tokens_invariant_witness :
    (NumberOrString.str "tok-B", tokenReqC8) ∈
      (Conversation.fromMessages
        [⟨0, Message.request tokenReqC8⟩]).progress_tokens ∧
    (isProgressCapableMethod tokenReqC8.method = true ∧
      parseWorkDoneProgressParams tokenReqC8.params =
        some (some (NumberOrString.str "tok-B"))) :=
  ⟨List.mem_singleton.mpr rfl,
    (progress_tokens_invariant [⟨0, Message.request tokenReqC8⟩]).1
      (NumberOrString.str "tok-B") tokenReqC8 (List.mem_singleton.mpr rfl)⟩

/-- Claim C9: the static method tables return the specified values —
`initialize` is Lifecycle and Client-declared, `textDocument/hover` is
Hover and Client-declared, `workspace/applyEdit` is Workspace and
Server-declared — and methods outside either table's domain map to none in
that table. -/
theorem static_tables_values (i : RequestId) (p : Json) (m : String) :
    classify_request ⟨i, "initialize", p⟩ = some MessageKind.Lifecycle ∧
    get_request_source ⟨i, "initialize", p⟩ = some MessageSource.Client ∧
    classify_request ⟨i, "textDocument/hover", p⟩ = some MessageKind.Hover ∧
    get_request_source ⟨i, "textDocument/hover", p⟩ =
      some MessageSource.Client ∧
    classify_request ⟨i, "workspace/applyEdit", p⟩ =
      some MessageKind.Workspace ∧
    get_request_source ⟨i, "workspace/applyEdit", p⟩ =
      some MessageSource.Server ∧
    (¬ m ∈ classifyRequestMethods → classify_request ⟨i, m, p⟩ = none) ∧
    (¬ m ∈ requestSourceMethods → get_request_source ⟨i, m, p⟩ = none) :=
  ⟨rfl, rfl, rfl, rfl, rfl, rfl,
    fun h => classify_request_unknown ⟨i, m, p⟩ h,
    fun h => get_request_source_unknown ⟨i, m, p⟩ h⟩

/-- Witness for claim C9 at the unknown method `custom/method`. -/
theorem static_tables_values_witness :
    (¬ "custom/method" ∈ classifyRequestMethods) ∧
    (¬ "custom/method" ∈ requestSourceMethods) ∧
    classify_request ⟨RequestId.num 1, "custom/method", Json.null⟩ = none ∧
    get_request_source ⟨RequestId.num 1, "custom/method", Json.null⟩ = none := by
  have h := static_tables_values (RequestId.num 1) Json.null "custom/method"
  exact ⟨by decide, by decide, h.2.2.2.2.2.2.1 (by decide),
    h.2.2.2.2.2.2.2 (by decide)⟩

/-- Claim C10: building a Conversation preserves its input exactly — the
stored message sequence is the input list, unmodified and in order; index
construction never alters, drops, or reorders it. -/
theorem fromMessages_preserves_messages (l : List MessageWithTimeStamp) :
    (Conversation.fromMessages l).messages = l :=
  rfl

end LlsSpec
